import Mathlib

/-!
Verification of the checksum accumulator in
`src/lightning/verification/checksum.go` (package `verification`).

The Go code is shallowly embedded: `uint64` values are natural numbers and
every `uint64` addition is reduced modulo `2^64`; XOR of two naturals below
`2^64` is again below `2^64`, so no reduction is inserted after `^`.
Byte strings (`[]byte`) are lists of naturals; the CRC table lookup masks
its index with `% 256` exactly as Go's `byte(crc) ^ v` indexing does.
-/

namespace Verification

/-- `2^64`, the modulus of Go `uint64` arithmetic. -/
def M64 : Nat := 18446744073709551616

/-- The ECMA polynomial `crc64.ECMA = 0xC96C5795D7870F42` (reversed form),
from Go's `hash/crc64`. -/
def ecmaPoly : Nat := 0xC96C5795D7870F42

/-- All-ones 64-bit mask; `^crc` in Go's `hash/crc64` is `crc ^^^ crcMask`. -/
def crcMask : Nat := 0xFFFFFFFFFFFFFFFF

/-- One step of the table construction in Go's `crc64.MakeTable`:
`if crc&1 == 1 { crc = (crc >> 1) ^ poly } else { crc >>= 1 }`. -/
def crcStep (crc : Nat) : Nat :=
  if crc % 2 = 1 then (crc / 2) ^^^ ecmaPoly else crc / 2

/-- Entry `n` of `ecmaTable = crc64.MakeTable(crc64.ECMA)`: eight `crcStep`
iterations starting from `n` (Go `hash/crc64`, `makeTable`). -/
def ecmaTable (n : Nat) : Nat :=
  crcStep (crcStep (crcStep (crcStep (crcStep (crcStep (crcStep (crcStep n)))))))

/-- The loop body of Go's `crc64.update`:
`crc = tab[byte(crc)^v] ^ (crc >> 8)` folded over the byte string,
without the leading/trailing complement. -/
def crc64Body (crc : Nat) (p : List Nat) : Nat :=
  p.foldl (fun c v => ecmaTable ((c % 256) ^^^ (v % 256)) ^^^ (c / 256)) crc

/-- Go's `crc64.Update(crc, ecmaTable, p)`: complement, fold the table
lookup over the bytes, complement again. -/
def crc64Update (crc : Nat) (p : List Nat) : Nat :=
  crc64Body (crc ^^^ crcMask) p ^^^ crcMask

/-- `kvec.KvPair`: one encoded key/value byte-pair. -/
structure KvPair where
  Key : List Nat
  Val : List Nat
deriving DecidableEq, Repr

/-- The per-pair digest computed inside `KVChecksum.Update`:
`sum = crc64.Update(0, ecmaTable, pair.Key); sum = crc64.Update(sum, ecmaTable, pair.Val)`. -/
def pairDigest (p : KvPair) : Nat :=
  crc64Update (crc64Update 0 p.Key) p.Val

/-- The accumulator struct `KVChecksum { bytes, kvs, checksum uint64 }`. -/
structure KVChecksum where
  bytes : Nat
  kvs : Nat
  checksum : Nat
deriving DecidableEq, Repr

/-- `NewKVChecksum(checksum uint64)`: zero bytes, zero kvs, given checksum. -/
def NewKVChecksum (checksum : Nat) : KVChecksum :=
  { bytes := 0, kvs := 0, checksum := checksum }

/-- `MakeKVChecksum(bytes, kvs, checksum uint64)`. -/
def MakeKVChecksum (bytes kvs checksum : Nat) : KVChecksum :=
  { bytes := bytes, kvs := kvs, checksum := checksum }

/-- The loop of `KVChecksum.Update`: starting from
`checksum, kvNum, bytes = 0, 0, 0`, each pair XORs its digest into
`checksum`, increments `kvNum`, and adds `len(Key)+len(Val)` to `bytes`.
Returned as `(checksum, kvNum, bytes)`. -/
def updateLoop (kvs : List KvPair) : Nat × Nat × Nat :=
  kvs.foldl
    (fun acc pair =>
      (acc.1 ^^^ pairDigest pair, acc.2.1 + 1,
        acc.2.2 + (pair.Key.length + pair.Val.length)))
    (0, 0, 0)

/-- `KVChecksum.Update`: run the loop, then
`c.bytes += uint64(bytes); c.kvs += uint64(kvNum); c.checksum ^= checksum`.
The Go `int`-to-`uint64` conversions and `uint64` additions are the
`% M64` reductions. -/
def KVChecksum.Update (c : KVChecksum) (kvs : List KvPair) : KVChecksum :=
  { bytes := (c.bytes + (updateLoop kvs).2.2 % M64) % M64,
    kvs := (c.kvs + (updateLoop kvs).2.1 % M64) % M64,
    checksum := c.checksum ^^^ (updateLoop kvs).1 }

/-- `KVChecksum.Add(other)`: `c.bytes += other.bytes; c.kvs += other.kvs;
c.checksum ^= other.checksum`. -/
def KVChecksum.Add (c other : KVChecksum) : KVChecksum :=
  { bytes := (c.bytes + other.bytes) % M64,
    kvs := (c.kvs + other.kvs) % M64,
    checksum := c.checksum ^^^ other.checksum }

/-- `KVChecksum.Sum()`. -/
def KVChecksum.Sum (c : KVChecksum) : Nat := c.checksum

/-- `KVChecksum.SumSize()`. -/
def KVChecksum.SumSize (c : KVChecksum) : Nat := c.bytes

/-- `KVChecksum.SumKVS()`. -/
def KVChecksum.SumKVS (c : KVChecksum) : Nat := c.kvs

/-- Well-formedness: the fields fit in `uint64`, as the Go struct types
guarantee. -/
def KVChecksum.WF (c : KVChecksum) : Prop :=
  c.bytes < M64 ∧ c.kvs < M64 ∧ c.checksum < M64

instance (c : KVChecksum) : Decidable c.WF := by
  unfold KVChecksum.WF; infer_instance

/-- Specification-side view: XOR of the per-pair digests of a batch. -/
def xorDigests (l : List KvPair) : Nat :=
  (l.map pairDigest).foldr (· ^^^ ·) 0

/-- Specification-side view: total `len(Key)+len(Val)` over a batch. -/
def sumBytes (l : List KvPair) : Nat :=
  (l.map (fun p => p.Key.length + p.Val.length)).sum

/-- Accumulators reachable from the empty accumulator: `BuiltFrom c ps`
says `c` arises from `NewKVChecksum 0` by some sequence of `Update` and
`Add` calls whose pairs, in order of folding, are `ps`. -/
inductive BuiltFrom : KVChecksum → List KvPair → Prop
  | empty : BuiltFrom (NewKVChecksum 0) []
  | update {c ps} (batch : List KvPair) :
      BuiltFrom c ps → BuiltFrom (c.Update batch) (ps ++ batch)
  | merge {c ps d qs} :
      BuiltFrom c ps → BuiltFrom d qs → BuiltFrom (c.Add d) (ps ++ qs)

/-- A concrete pair used when instantiating universally quantified results. -/
def pA : KvPair := ⟨[], [1]⟩

/-- A second concrete pair, distinct from `pA`. -/
def pB : KvPair := ⟨[2], []⟩

theorem M64_pos : 0 < M64 := by decide

theorem xorDigests_nil : xorDigests [] = 0 := rfl

theorem xorDigests_cons (p : KvPair) (l : List KvPair) :
    xorDigests (p :: l) = pairDigest p ^^^ xorDigests l := rfl

theorem xorDigests_append (l₁ l₂ : List KvPair) :
    xorDigests (l₁ ++ l₂) = xorDigests l₁ ^^^ xorDigests l₂ := by
  induction l₁ with
  | nil => simp [xorDigests_nil, Nat.zero_xor]
  | cons p t ih =>
      simp only [List.cons_append, xorDigests_cons, ih, Nat.xor_assoc]

theorem sumBytes_nil : sumBytes [] = 0 := rfl

theorem sumBytes_cons (p : KvPair) (l : List KvPair) :
    sumBytes (p :: l) = (p.Key.length + p.Val.length) + sumBytes l := rfl

theorem sumBytes_append (l₁ l₂ : List KvPair) :
    sumBytes (l₁ ++ l₂) = sumBytes l₁ + sumBytes l₂ := by
  unfold sumBytes
  rw [List.map_append, List.sum_append]

theorem updateLoop_go (l : List KvPair) (a b c : Nat) :
    l.foldl
      (fun acc pair =>
        (acc.1 ^^^ pairDigest pair, acc.2.1 + 1,
          acc.2.2 + (pair.Key.length + pair.Val.length)))
      (a, b, c)
      = (a ^^^ xorDigests l, b + l.length, c + sumBytes l) := by
  induction l generalizing a b c with
  | nil => simp [xorDigests_nil, sumBytes_nil]
  | cons p t ih =>
      rw [List.foldl_cons, ih]
      simp only [xorDigests_cons, sumBytes_cons, List.length_cons, Prod.mk.injEq]
      refine ⟨?_, by omega, by omega⟩
      rw [Nat.xor_assoc]

theorem updateLoop_eq (l : List KvPair) :
    updateLoop l = (xorDigests l, l.length, sumBytes l) := by
  unfold updateLoop
  rw [updateLoop_go]
  simp [Nat.zero_xor]

theorem Update_eq (c : KVChecksum) (l : List KvPair) :
    c.Update l =
      { bytes := (c.bytes + sumBytes l % M64) % M64,
        kvs := (c.kvs + l.length % M64) % M64,
        checksum := c.checksum ^^^ xorDigests l } := by
  unfold KVChecksum.Update
  rw [updateLoop_eq]

theorem xorFold_perm {l₁ l₂ : List Nat} (h : l₁.Perm l₂) :
    l₁.foldr (· ^^^ ·) 0 = l₂.foldr (· ^^^ ·) 0 := by
  induction h with
  | nil => rfl
  | cons x _ ih => simp only [List.foldr_cons, ih]
  | swap x y l =>
      simp only [List.foldr_cons]
      rw [← Nat.xor_assoc, ← Nat.xor_assoc, Nat.xor_comm x y]
  | trans _ _ ih₁ ih₂ => exact ih₁.trans ih₂

theorem xorDigests_perm {l₁ l₂ : List KvPair} (h : l₁.Perm l₂) :
    xorDigests l₁ = xorDigests l₂ :=
  xorFold_perm (h.map pairDigest)

theorem sumBytes_perm {l₁ l₂ : List KvPair} (h : l₁.Perm l₂) :
    sumBytes l₁ = sumBytes l₂ := by
  unfold sumBytes
  exact (h.map (fun p => p.Key.length + p.Val.length)).sum_eq

theorem Update_perm (c : KVChecksum) {l₁ l₂ : List KvPair} (h : l₁.Perm l₂) :
    c.Update l₁ = c.Update l₂ := by
  rw [Update_eq, Update_eq, xorDigests_perm h, sumBytes_perm h, h.length_eq]

theorem Update_append (c : KVChecksum) (l₁ l₂ : List KvPair) :
    (c.Update l₁).Update l₂ = c.Update (l₁ ++ l₂) := by
  rw [Update_eq, Update_eq, Update_eq]
  simp only [xorDigests_append, sumBytes_append, List.length_append,
    KVChecksum.mk.injEq]
  refine ⟨?_, ?_, Nat.xor_assoc _ _ _⟩
  · simp only [M64]; omega
  · simp only [M64]; omega

theorem Update_nil_of_lt (c : KVChecksum) (hb : c.bytes < M64)
    (hk : c.kvs < M64) : c.Update [] = c := by
  rw [Update_eq]
  simp only [xorDigests_nil, sumBytes_nil, List.length_nil, Nat.zero_mod,
    Nat.add_zero, Nat.xor_zero, Nat.mod_eq_of_lt hb, Nat.mod_eq_of_lt hk]

theorem Update_bytes_lt (c : KVChecksum) (l : List KvPair) :
    (c.Update l).bytes < M64 ∧ (c.Update l).kvs < M64 := by
  rw [Update_eq]
  exact ⟨Nat.mod_lt _ M64_pos, Nat.mod_lt _ M64_pos⟩

theorem foldl_Update (B : List (List KvPair)) (c : KVChecksum)
    (hb : c.bytes < M64) (hk : c.kvs < M64) :
    B.foldl KVChecksum.Update c = c.Update B.flatten := by
  induction B generalizing c with
  | nil => exact (Update_nil_of_lt c hb hk).symm
  | cons l B ih =>
      rw [List.foldl_cons, List.flatten_cons, ← Update_append]
      exact ih (c.Update l) (Update_bytes_lt c l).1 (Update_bytes_lt c l).2

theorem Add_assoc_eq (a b c : KVChecksum) :
    (a.Add b).Add c = a.Add (b.Add c) := by
  unfold KVChecksum.Add
  simp only [KVChecksum.mk.injEq]
  refine ⟨?_, ?_, Nat.xor_assoc _ _ _⟩
  · simp only [M64]; omega
  · simp only [M64]; omega

theorem Add_comm_eq (a b : KVChecksum) : a.Add b = b.Add a := by
  unfold KVChecksum.Add
  simp only [KVChecksum.mk.injEq]
  exact ⟨by rw [Nat.add_comm], by rw [Nat.add_comm], Nat.xor_comm _ _⟩

theorem Update_empty_acc (l : List KvPair) :
    (NewKVChecksum 0).Update l =
      MakeKVChecksum (sumBytes l % M64) (l.length % M64) (xorDigests l) := by
  rw [Update_eq]
  unfold NewKVChecksum MakeKVChecksum
  congr 1
  · simp only [Nat.zero_add, M64]; omega
  · simp only [Nat.zero_add, M64]; omega
  · exact Nat.zero_xor _

theorem builtFrom_closed {c : KVChecksum} {ps : List KvPair}
    (h : BuiltFrom c ps) :
    c = MakeKVChecksum (sumBytes ps % M64) (ps.length % M64) (xorDigests ps) := by
  induction h with
  | empty => rfl
  | update batch _ ih =>
      subst ih
      rw [Update_eq]
      unfold MakeKVChecksum
      congr 1
      · simp only [sumBytes_append, M64]; omega
      · simp only [List.length_append, M64]; omega
      · rw [xorDigests_append]
  | merge _ _ ih₁ ih₂ =>
      subst ih₁; subst ih₂
      unfold KVChecksum.Add MakeKVChecksum
      congr 1
      · simp only [sumBytes_append, M64]; omega
      · simp only [List.length_append, M64]; omega
      · rw [xorDigests_append]

theorem crc64Body_append (c : Nat) (p q : List Nat) :
    crc64Body c (p ++ q) = crc64Body (crc64Body c p) q := by
  unfold crc64Body
  rw [List.foldl_append]

theorem xor_mask_cancel (x : Nat) : x ^^^ crcMask ^^^ crcMask = x := by
  rw [Nat.xor_assoc, Nat.xor_self, Nat.xor_zero]

theorem crc64Update_roll (k v : List Nat) :
    crc64Update (crc64Update 0 k) v = crc64Update 0 (k ++ v) := by
  unfold crc64Update
  rw [crc64Body_append, xor_mask_cancel]

/-- C1: merging accumulators built by `Update` over three partitions is
associative and commutative, and equals the single accumulator obtained by
`Update`-ing the union of the partitions in any interleaving. -/
theorem merge_assoc_comm_sequential (P₁ P₂ P₃ u : List KvPair)
    (h : u.Perm (P₁ ++ P₂ ++ P₃)) :
    ((((NewKVChecksum 0).Update P₁).Add ((NewKVChecksum 0).Update P₂)).Add
        ((NewKVChecksum 0).Update P₃)
      = ((NewKVChecksum 0).Update P₁).Add
          (((NewKVChecksum 0).Update P₂).Add ((NewKVChecksum 0).Update P₃)))
    ∧ (((NewKVChecksum 0).Update P₁).Add ((NewKVChecksum 0).Update P₂)
      = ((NewKVChecksum 0).Update P₂).Add ((NewKVChecksum 0).Update P₁))
    ∧ ((((NewKVChecksum 0).Update P₁).Add ((NewKVChecksum 0).Update P₂)).Add
        ((NewKVChecksum 0).Update P₃)
      = (NewKVChecksum 0).Update u) := by
  refine ⟨Add_assoc_eq _ _ _, Add_comm_eq _ _, ?_⟩
  rw [Update_perm _ h, Update_empty_acc P₁, Update_empty_acc P₂,
    Update_empty_acc P₃, Update_empty_acc (P₁ ++ P₂ ++ P₃)]
  unfold KVChecksum.Add MakeKVChecksum
  congr 1
  · simp only [sumBytes_append, M64]; omega
  · simp only [List.length_append, M64]; omega
  · rw [xorDigests_append, xorDigests_append, Nat.xor_assoc]

/-- Witness for C1 at the concrete partitions `[pA]`, `[pB]`, `[]` and the
interleaving `[pB, pA]` of their union. -/
theorem merge_assoc_comm_sequential_witness :
    ([pB, pA] : List KvPair).Perm ([pA] ++ [pB] ++ [])
    ∧ (((((NewKVChecksum 0).Update [pA]).Add ((NewKVChecksum 0).Update [pB])).Add
          ((NewKVChecksum 0).Update [])
        = ((NewKVChecksum 0).Update [pA]).Add
            (((NewKVChecksum 0).Update [pB]).Add ((NewKVChecksum 0).Update [])))
      ∧ (((NewKVChecksum 0).Update [pA]).Add ((NewKVChecksum 0).Update [pB])
        = ((NewKVChecksum 0).Update [pB]).Add ((NewKVChecksum 0).Update [pA]))
      ∧ ((((NewKVChecksum 0).Update [pA]).Add ((NewKVChecksum 0).Update [pB])).Add
          ((NewKVChecksum 0).Update [])
        = (NewKVChecksum 0).Update [pB, pA])) :=
  ⟨by decide, merge_assoc_comm_sequential [pA] [pB] [] [pB, pA] (by decide)⟩

/-- C2: `Update` adds the batch's total key+value length to `bytes`, the
batch's pair count to `kvs`, and XORs the XOR of the per-pair digests into
`checksum`; nothing else changes (the whole resulting state is equal to
exactly that triple). Additions are `uint64` additions, i.e. modulo `2^64`. -/
theorem update_effect_spec (c : KVChecksum) (l : List KvPair) :
    c.Update l =
      MakeKVChecksum ((c.bytes + sumBytes l % M64) % M64)
        ((c.kvs + l.length % M64) % M64) (c.checksum ^^^ xorDigests l) :=
  Update_eq c l

/-- C3: the final state after any sequence of `Update` calls depends only on
the multiset of pairs, not on their batching or order; in particular
`Update [a, b]` then `Update [p]` equals the single call `Update [p, b, a]`.  -/
theorem update_order_insensitive (c : KVChecksum) (B₁ B₂ : List (List KvPair))
    (hb : c.bytes < M64) (hk : c.kvs < M64)
    (h : B₁.flatten.Perm B₂.flatten) :
    B₁.foldl KVChecksum.Update c = B₂.foldl KVChecksum.Update c
    ∧ ∀ a b p : KvPair, (c.Update [a, b]).Update [p] = c.Update [p, b, a] := by
  constructor
  · rw [foldl_Update B₁ c hb hk, foldl_Update B₂ c hb hk]
    exact Update_perm c h
  · intro a b p
    rw [Update_append]
    exact Update_perm c ((List.reverse_perm [a, b, p]).symm)

/-- Witness for C3: splitting `[pA, pB]` as `[[pA], [pB]]` versus `[[pB, pA]]`
over the all-zero accumulator. -/
theorem update_order_insensitive_witness :
    (MakeKVChecksum 0 0 0).bytes < M64
    ∧ (MakeKVChecksum 0 0 0).kvs < M64
    ∧ ([[pA], [pB]] : List (List KvPair)).flatten.Perm
        ([[pB, pA]] : List (List KvPair)).flatten
    ∧ (([[pA], [pB]] : List (List KvPair)).foldl KVChecksum.Update
          (MakeKVChecksum 0 0 0)
        = ([[pB, pA]] : List (List KvPair)).foldl KVChecksum.Update
            (MakeKVChecksum 0 0 0)
      ∧ ∀ a b p : KvPair,
          ((MakeKVChecksum 0 0 0).Update [a, b]).Update [p]
            = (MakeKVChecksum 0 0 0).Update [p, b, a]) :=
  ⟨by decide, by decide, by decide,
    update_order_insensitive (MakeKVChecksum 0 0 0) [[pA], [pB]] [[pB, pA]]
      (by decide) (by decide) (by decide)⟩

/-- C4: `Add` sums `bytes` and `kvs` (modulo `2^64`) and XORs the checksums;
the concrete scenario `merge(merge(A, B), C)` with `A = (10, 2, X)`,
`B = (5, 1, Y)`, `C = (0, 0, 0)` yields `(15, 3, X ^^^ Y)`. -/
theorem add_effect_spec (c other : KVChecksum) :
    (c.Add other =
      MakeKVChecksum ((c.bytes + other.bytes) % M64) ((c.kvs + other.kvs) % M64)
        (c.checksum ^^^ other.checksum))
    ∧ ∀ X Y : Nat,
        ((MakeKVChecksum 10 2 X).Add (MakeKVChecksum 5 1 Y)).Add
            (MakeKVChecksum 0 0 0)
          = MakeKVChecksum 15 3 (X ^^^ Y) := by
  refine ⟨rfl, fun X Y => ?_⟩
  unfold KVChecksum.Add MakeKVChecksum
  congr 1
  exact Nat.xor_zero _

/-- C5: the per-pair digest is the rolling CRC-64-ECMA of key followed by
value (equal to the digest of their concatenation), and `Update` on the
single pair with key `"k1"` (bytes 107, 49) and value `"v1"` (bytes 118, 49)
leaves `Sum()` equal to the CRC-64-ECMA rolling digest of `"k1v1"` with
seed 0 — numerically `0x69a83c7f55f85d21` — with `SumSize() = 4` and
`SumKVS() = 1`. -/
theorem pair_digest_known_vector (p : KvPair) :
    pairDigest p = crc64Update 0 (p.Key ++ p.Val)
    ∧ ((NewKVChecksum 0).Update [⟨[107, 49], [118, 49]⟩]).Sum
        = crc64Update 0 [107, 49, 118, 49]
    ∧ ((NewKVChecksum 0).Update [⟨[107, 49], [118, 49]⟩]).Sum
        = 7613401687670676769
    ∧ ((NewKVChecksum 0).Update [⟨[107, 49], [118, 49]⟩]).SumSize = 4
    ∧ ((NewKVChecksum 0).Update [⟨[107, 49], [118, 49]⟩]).SumKVS = 1 :=
  ⟨crc64Update_roll p.Key p.Val, by decide, by decide, by decide, by decide⟩

/-- C6: every accumulator reachable from the empty one by `Update` and `Add`
has `checksum` equal to the XOR of the digests of all pairs ever folded in,
and `bytes`/`kvs` equal to the (mod `2^64`) sums of their lengths and count,
independent of the order in which the pairs are listed. -/
theorem accumulator_invariant {c : KVChecksum} {ps qs : List KvPair}
    (hbuilt : BuiltFrom c ps) (hperm : ps.Perm qs) :
    c.Sum = xorDigests qs ∧ c.SumSize = sumBytes qs % M64
    ∧ c.SumKVS = qs.length % M64 := by
  have h := builtFrom_closed hbuilt
  subst h
  simp only [MakeKVChecksum, KVChecksum.Sum, KVChecksum.SumSize,
    KVChecksum.SumKVS]
  exact ⟨xorDigests_perm hperm, by rw [sumBytes_perm hperm],
    by rw [hperm.length_eq]⟩

/-- Witness for C6: the accumulator obtained by one `Update` of `[pA]`. -/
theorem accumulator_invariant_witness :
    BuiltFrom ((NewKVChecksum 0).Update [pA]) ([] ++ [pA])
    ∧ ([] ++ [pA] : List KvPair).Perm [pA]
    ∧ (((NewKVChecksum 0).Update [pA]).Sum = xorDigests [pA]
      ∧ ((NewKVChecksum 0).Update [pA]).SumSize = sumBytes [pA] % M64
      ∧ ((NewKVChecksum 0).Update [pA]).SumKVS
          = ([pA] : List KvPair).length % M64) :=
  ⟨BuiltFrom.update [pA] BuiltFrom.empty, by decide,
    accumulator_invariant (BuiltFrom.update [pA] BuiltFrom.empty) (by decide)⟩

/-- C7: folding one pair into each of two empty accumulators and merging
cancels the checksum (same `Sum` as the untouched empty accumulator), while
`SumKVS` is 2 and `SumSize` is twice the pair's length (mod `2^64`). -/
theorem duplicate_cancellation (p : KvPair) :
    ((((NewKVChecksum 0).Update [p]).Add ((NewKVChecksum 0).Update [p])).Sum
        = (NewKVChecksum 0).Sum)
    ∧ ((((NewKVChecksum 0).Update [p]).Add ((NewKVChecksum 0).Update [p])).SumKVS
        = 2)
    ∧ ((((NewKVChecksum 0).Update [p]).Add ((NewKVChecksum 0).Update [p])).SumSize
        = 2 * (p.Key.length + p.Val.length) % M64) := by
  rw [Update_empty_acc [p]]
  unfold KVChecksum.Add MakeKVChecksum KVChecksum.Sum KVChecksum.SumKVS
    KVChecksum.SumSize NewKVChecksum
  refine ⟨?_, ?_, ?_⟩
  · simp only [xorDigests_cons, xorDigests_nil, Nat.xor_zero, Nat.xor_self]
  · simp only [List.length_cons, List.length_nil, M64]
  · simp only [sumBytes_cons, sumBytes_nil, Nat.add_zero, M64]; omega

/-- C8: the freshly constructed empty accumulator is the all-zero identity:
its three accessors return 0, and merging any well-formed accumulator with
it leaves that accumulator unchanged. -/
theorem identity_element :
    (NewKVChecksum 0).SumSize = 0 ∧ (NewKVChecksum 0).SumKVS = 0
    ∧ (NewKVChecksum 0).Sum = 0
    ∧ ∀ c : KVChecksum, c.WF → c.Add (NewKVChecksum 0) = c := by
  refine ⟨rfl, rfl, rfl, fun c hc => ?_⟩
  obtain ⟨hb, hk, _⟩ := hc
  unfold KVChecksum.Add NewKVChecksum
  simp only [Nat.add_zero, Nat.xor_zero, Nat.mod_eq_of_lt hb,
    Nat.mod_eq_of_lt hk]

/-- Witness for C8 at the concrete accumulator `(7, 8, 9)`. -/
theorem identity_element_witness :
    (MakeKVChecksum 7 8 9).WF
    ∧ (MakeKVChecksum 7 8 9).Add (NewKVChecksum 0) = MakeKVChecksum 7 8 9 :=
  ⟨by decide, identity_element.2.2.2 (MakeKVChecksum 7 8 9) (by decide)⟩

/-- C9: `Update` is a total function; a pair with nil (empty) key and value
contributes 0 bytes, is still counted, and its digest is the defined CRC
value of the empty byte string (0), and an empty key just leaves the rolling
CRC state at the seed, so the digest of `(nil, v)` is the plain CRC of `v`. -/
theorem update_total_nil (c : KVChecksum) (v : List Nat)
    (hb : c.bytes < M64) (hk : c.kvs < M64) :
    c.Update [⟨[], []⟩] = MakeKVChecksum c.bytes ((c.kvs + 1) % M64) c.checksum
    ∧ pairDigest ⟨[], v⟩ = crc64Update 0 v
    ∧ pairDigest ⟨[], []⟩ = 0 := by
  refine ⟨?_, ?_, by decide⟩
  · have h1 : sumBytes [(⟨[], []⟩ : KvPair)] = 0 := rfl
    have h2 : xorDigests [(⟨[], []⟩ : KvPair)] = 0 := by decide
    rw [Update_eq, h1, h2]
    unfold MakeKVChecksum
    congr 1
    · simp only [Nat.zero_mod, Nat.add_zero]
      exact Nat.mod_eq_of_lt hb
    · exact Nat.xor_zero _
  · show crc64Update (crc64Update 0 []) v = crc64Update 0 v
    rw [show crc64Update 0 ([] : List Nat) = 0 from by decide]

/-- Witness for C9 at the accumulator `(4, 1, 6)` and value bytes `[7]`. -/
theorem update_total_nil_witness :
    (MakeKVChecksum 4 1 6).bytes < M64
    ∧ (MakeKVChecksum 4 1 6).kvs < M64
    ∧ ((MakeKVChecksum 4 1 6).Update [⟨[], []⟩]
          = MakeKVChecksum (MakeKVChecksum 4 1 6).bytes
              (((MakeKVChecksum 4 1 6).kvs + 1) % M64)
              (MakeKVChecksum 4 1 6).checksum
      ∧ pairDigest ⟨[], [7]⟩ = crc64Update 0 [7]
      ∧ pairDigest ⟨[], []⟩ = 0) :=
  ⟨by decide, by decide,
    update_total_nil (MakeKVChecksum 4 1 6) [7] (by decide) (by decide)⟩

/-- C10: `NewKVChecksum c` has zero bytes and kvs but `Sum() = c` — so for
`c = 1` it is not the all-zero identity — and `MakeKVChecksum b k c`
round-trips through the three accessors. -/
theorem constructor_roundtrip (b k c : Nat) :
    (NewKVChecksum c).SumSize = 0 ∧ (NewKVChecksum c).SumKVS = 0
    ∧ (NewKVChecksum c).Sum = c
    ∧ (MakeKVChecksum b k c).SumSize = b ∧ (MakeKVChecksum b k c).SumKVS = k
    ∧ (MakeKVChecksum b k c).Sum = c
    ∧ (NewKVChecksum 1).Sum ≠ 0 :=
  ⟨rfl, rfl, rfl, rfl, rfl, rfl, by decide⟩

end Verification
